import Mathlib

/-!
Shallow embedding of the realtime trivia server (`src/server.js`, primary
variant) together with the two source variants the claims reference:
`src/unnamed/part_001` (owner-disconnect grace window) and
`src/unnamed/part_002` (collision-checked room creation).

Connection identifiers, display names and room codes are strings.  A JS
object with string keys is modelled as an association list that preserves
insertion order; assigning to an existing key replaces the value in place,
assigning a fresh key appends.  Broadcasts are modelled as a list of
emitted events returned alongside the new state.
-/

namespace Blueprints

/-- A player record: `{ id, name, score }` (`src/server.js` line 17). -/
structure Player where
  id : String
  name : String
  score : Nat
deriving DecidableEq, Repr

/-- A per-player grading record `{ id, name, correct, awarded }`
(`finishQuestion`, `src/server.js` line 209). -/
structure ResultRec where
  id : String
  name : String
  correct : Bool
  awarded : Nat
deriving DecidableEq, Repr

/-- The active question stored in `room.currentQuestion`
(`src/server.js` lines 136-143).  `answers` maps a connection identifier
to the submitted index list, in submission order. -/
structure Question where
  question : String
  options : List String
  correctIndexes : List Int
  duration : Nat
  points : Nat
  answers : List (String × List Int)
deriving DecidableEq, Repr

/-- A room (`src/server.js` line 17): `players` is the JS object
`room.players` as an insertion-ordered association of players keyed by
`Player.id`; `timer` records whether a grading timeout is pending. -/
structure Room where
  owner : Option String
  players : List Player
  started : Bool
  currentQuestion : Option Question
  timer : Bool
deriving DecidableEq, Repr

/-- The process-wide `rooms` table, keyed by room code, insertion ordered. -/
abbrev Registry := List (String × Room)

/-- Events emitted via `socket.emit` / `io.to(...).emit`. -/
inductive Event where
  | playerList (players : List Player) (owner : Option String)
  | questionStarted (question : String) (options : List String) (duration : Nat)
  | questionEnded (results : List ResultRec) (correctIndexes : List Int)
  | leaderboard (players : List Player)
  | roomClosed
  | kicked (target : String)
  | goToGamePage
  | playerAnswered (id : String) (name : Option String)
  | errorMsg (msg : String)
deriving DecidableEq, Repr

/-- Acknowledgement delivered through a socket.io callback.  `noAck`
records a handler path that returns without ever invoking the callback. -/
inductive JoinAck where
  | success (owner : Option String) (players : List Player)
  | failure (msg : String)
  | noAck
deriving DecidableEq, Repr

/-- Association-list lookup with JS object-key semantics (keys unique,
first match). -/
def lookupA {α : Type} : List (String × α) → String → Option α
  | [], _ => none
  | (k, v) :: rest, k' => if k = k' then some v else lookupA rest k'

/-- JS assignment `obj[p.id] = p` on an insertion-ordered object:
replaces in place if the key exists, otherwise appends. -/
def jsAssign (ps : List Player) (p : Player) : List Player :=
  if ps.any (fun q => q.id = p.id) then
    ps.map (fun q => if q.id = p.id then p else q)
  else ps ++ [p]

/-- `new Set(l)` rendered back as a list: insertion-order deduplication,
first occurrence kept (used for the `Array.from(correctSet)` payload). -/
def jsSetList (l : List Int) : List Int :=
  l.foldl (fun acc i => if i ∈ acc then acc else acc ++ [i]) []

/-- The set-equality test in `finishQuestion` (`src/server.js` lines
199-203): `selsSet.size === correctSet.size` and every member of
`correctSet` is in `selsSet`.  JS `Set` sizes and membership are the card
and membership of the lists' finsets. -/
def gradeCorrect (sels correct : List Int) : Bool :=
  (sels.toFinset.card == correct.toFinset.card) &&
  correct.all (fun i => decide (i ∈ sels.toFinset))

/-- One iteration of the grading loop body (`src/server.js` lines
196-210): returns the updated player and the result record. -/
def gradePlayer (cq : Question) (p : Player) : Player × ResultRec :=
  let sels := (lookupA cq.answers p.id).getD []
  if gradeCorrect sels cq.correctIndexes then
    ({ p with score := p.score + cq.points },
     { id := p.id, name := p.name, correct := true, awarded := cq.points })
  else
    (p, { id := p.id, name := p.name, correct := false, awarded := 0 })

/-- The graded player list and result list produced by the loop in
`finishQuestion` (`src/server.js` lines 196-210), in player iteration
order. -/
def gradeResults (room : Room) (cq : Question) : List Player × List ResultRec :=
  (room.players.map (fun p => (gradePlayer cq p).1),
   room.players.map (fun p => (gradePlayer cq p).2))

/-- Stable insert used to model `Array.prototype.sort` with comparator
`(a,b) => b.score - a.score`: JS `sort` is stable, so a player is placed
before the first element whose score is ≤ its own. -/
def insertLb (p : Player) : List Player → List Player
  | [] => [p]
  | q :: qs => if q.score ≤ p.score then p :: q :: qs else q :: insertLb p qs

/-- The leaderboard sort (`src/server.js` line 214): descending by score,
stable with respect to the input (player insertion) order. -/
def lbSort : List Player → List Player
  | [] => []
  | p :: ps => insertLb p (lbSort ps)

/-- `finishQuestion(code)` (`src/server.js` lines 187-217), after the
`rooms[code]` lookup: no-op when the room is gone or no question is
active; otherwise clears the timer, grades every current player, clears
`currentQuestion`, then broadcasts `questionEnded`, `leaderboard` and a
refreshed `playerList`. -/
def finishQuestion : Option Room → Option Room × List Event
  | none => (none, [])
  | some room =>
    match room.currentQuestion with
    | none => (some room, [])
    | some cq =>
      let players' := (gradeResults room cq).1
      let results := (gradeResults room cq).2
      let room' : Room :=
        { room with players := players', currentQuestion := none, timer := false }
      (some room',
       [Event.questionEnded results (jsSetList cq.correctIndexes),
        Event.leaderboard (lbSort players'),
        Event.playerList players' room.owner])

/-- `endQuestionNow` handler (`src/server.js` lines 160-164): only the
owner may end; otherwise delegates to `finishQuestion`. -/
def endQuestionNow (callerId : String) : Option Room → Option Room × List Event
  | none => (none, [Event.errorMsg "Only owner can end"])
  | some room =>
    if room.owner = some callerId then finishQuestion (some room)
    else (some room, [Event.errorMsg "Only owner can end"])

/-- A `submitAnswer` payload: JS accepts an array of indexes or a single
value (`Array.isArray(selections)`, `src/server.js` line 154). -/
inductive Selections where
  | arr (l : List Int)
  | scalar (n : Int)
deriving DecidableEq, Repr

/-- Normalization applied when storing a submission
(`src/server.js` line 154). -/
def normSel : Selections → List Int
  | .arr l => l
  | .scalar n => [n]

/-- `submitAnswer` handler (`src/server.js` lines 150-158).  Stored
submissions are always (truthy) arrays, so the duplicate check
`if (answers[socket.id])` is exactly `isSome`.  On success the submission
is stored under the caller's connection identifier — membership in
`room.players` is never checked — and, when an owner is set and currently
connected, a `playerAnswered` notification goes to the owner. -/
def submitAnswer (oroom : Option Room) (sid : String) (sel : Selections)
    (connected : List String) : Option Room × List Event :=
  match oroom with
  | none => (none, [Event.errorMsg "No active question"])
  | some room =>
    match room.currentQuestion with
    | none => (some room, [Event.errorMsg "No active question"])
    | some cq =>
      if (lookupA cq.answers sid).isSome then
        (some room, [Event.errorMsg "Already answered"])
      else
        let cq' := { cq with answers := cq.answers ++ [(sid, normSel sel)] }
        let room' := { room with currentQuestion := some cq' }
        let evs :=
          match room.owner with
          | some o =>
            if o ∈ connected then
              [Event.playerAnswered sid
                ((room.players.find? (fun p => p.id = sid)).map Player.name)]
            else []
          | none => []
        (some room', evs)

/-- `joinRoom` handler (`src/server.js` lines 66-104), after payload
validation and room lookup.  Started room: a caller whose name matches an
existing player is remapped to the new connection identifier preserving
the score (and takes ownership when `isOwner`); a caller with an unknown
name and `isOwner = false` gets `Game already started`; a caller with an
unknown name and `isOwner = true` falls off the end of the handler — no
callback, no state change.  Unstarted room: name-collision check, then a
fresh player with score 0 is inserted (taking ownership when
`isOwner`). -/
def joinRoom (oroom : Option Room) (sid name : String) (isOwner : Bool) :
    Option Room × JoinAck × List Event :=
  match oroom with
  | none => (none, .failure "Room not found", [])
  | some room =>
    if room.started then
      match room.players.find? (fun p => p.name = name) with
      | none =>
        if isOwner then (some room, .noAck, [])
        else (some room, .failure "Game already started", [])
      | some old =>
        let removed := room.players.eraseP (fun p => p.name = name)
        let players' := jsAssign removed { id := sid, name := old.name, score := old.score }
        let owner' := if isOwner then some sid else room.owner
        let room' := { room with players := players', owner := owner' }
        (some room', .success owner' players', [Event.playerList players' owner'])
    else
      if room.players.any (fun p => p.name = name) then
        (some room, .failure "Name already taken in this room", [])
      else
        let owner' := if isOwner then some sid else room.owner
        let players' := jsAssign room.players { id := sid, name := name, score := 0 }
        let room' := { room with players := players', owner := owner' }
        (some room', .success owner' players', [Event.playerList players' owner'])

/-- `kickPlayer` handler (`src/server.js` lines 106-115): owner-only;
silently no-ops when the target is absent; otherwise deletes the target
player (the owner's own identifier included — there is no self-kick
guard) and emits `kicked` plus the refreshed player list. -/
def kickPlayer (oroom : Option Room) (callerId targetId : String) :
    Option Room × List Event :=
  match oroom with
  | none => (none, [Event.errorMsg "Room not found"])
  | some room =>
    if room.owner ≠ some callerId then
      (some room, [Event.errorMsg "Only owner can kick"])
    else if room.players.any (fun p => p.id = targetId) then
      let players' := room.players.filter (fun p => ¬ (p.id = targetId))
      (some { room with players := players' },
       [Event.kicked targetId, Event.playerList players' room.owner])
    else (some room, [])

/-- `disconnect` handler (`src/server.js` lines 166-184): scan the room
table in order for the first room containing the socket; remove the
player; if that player was the owner the room is deleted immediately and
`roomClosed` is broadcast, otherwise the player list is rebroadcast. -/
def disconnect : Registry → String → Registry × List Event
  | [], _ => ([], [])
  | (code, room) :: rest, sid =>
    if room.players.any (fun p => p.id = sid) then
      if room.owner = some sid then
        (rest, [Event.roomClosed])
      else
        let players' := room.players.filter (fun p => ¬ (p.id = sid))
        ((code, { room with players := players' }) :: rest,
         [Event.playerList players' room.owner])
    else
      let r := disconnect rest sid
      ((code, room) :: r.1, r.2)

/-- The room stored by `POST /api/create` (`src/server.js` line 28). -/
def freshRoom : Room :=
  { owner := none, players := [], started := false, currentQuestion := none, timer := false }

/-- JS assignment `rooms[code] = room` on the room table. -/
def jsAssignRoom (reg : Registry) (code : String) (r : Room) : Registry :=
  if (lookupA reg code).isSome then
    reg.map (fun kv => if kv.1 = code then (code, r) else kv)
  else reg ++ [(code, r)]

/-- `POST /api/create` (`src/server.js` lines 24-30): the generated code
(the injected provider's output is a parameter here) is stored
unconditionally — there is no collision check, so a colliding code
overwrites the room already registered under it. -/
def apiCreate (reg : Registry) (name code : String) : Registry × Option String :=
  if name = "" then (reg, none)
  else (jsAssignRoom reg code freshRoom, some code)

/-- HTTP-style response of the REST join-validation endpoint. -/
inductive RestResp where
  | ok
  | err (status : Nat) (msg : String)
deriving DecidableEq, Repr

/-- Room-code normalization `String(code).trim().toUpperCase()`
(`src/server.js` line 36). -/
def normCode (s : String) : String := s.trim.toUpper

/-- `POST /api/join` (`src/server.js` lines 33-45): pre-join validation.
In a started room a name not currently present fails
`Game already started`; a name currently present falls through to the
name-collision check and fails `409 Name already taken` — so no request
against a started room ever gets `ok`. -/
def apiJoin (reg : Registry) (code name : String) : RestResp :=
  if code = "" ∨ name = "" then .err 400 "Missing code or name"
  else
    match lookupA reg (normCode code) with
    | none => .err 404 "Room not found"
    | some room =>
      if room.started ∧ ¬ room.players.any (fun p => p.name = name) then
        .err 400 "Game already started"
      else if room.players.any (fun p => p.name = name) then
        .err 409 "Name already taken"
      else .ok

/-! ### The `src/unnamed/part_001` variant (owner-disconnect grace window) -/

/-- A room of the grace-window variant (`src/unnamed/part_001` line 12):
`ownerTimeout` records whether the 30-second `_ownerTimeout` callback is
pending. -/
structure Room1 where
  owner : Option String
  players : List Player
  started : Bool
  ownerTimeout : Bool
deriving DecidableEq, Repr

/-- `disconnect` handler of the grace-window variant
(`src/unnamed/part_001` lines 90-116): the player is removed, but the
room is never deleted here; if the removed player was the owner a
30-second `_ownerTimeout` is scheduled instead, and the player list is
rebroadcast either way. -/
def disconnect1 : List (String × Room1) → String → List (String × Room1) × List Event
  | [], _ => ([], [])
  | (code, room) :: rest, sid =>
    if room.players.any (fun p => p.id = sid) then
      let wasOwner := room.owner = some sid
      let players' := room.players.filter (fun p => ¬ (p.id = sid))
      let room' := { room with
        players := players',
        ownerTimeout := if wasOwner then true else room.ownerTimeout }
      ((code, room') :: rest, [Event.playerList players' room.owner])
    else
      let r := disconnect1 rest sid
      ((code, room) :: r.1, r.2)

/-- `rejoinRoom` handler of the grace-window variant
(`src/unnamed/part_001` lines 52-77): a caller whose name matches an
existing player is remapped to the new connection identifier preserving
the score, and any pending `_ownerTimeout` is cancelled. -/
def rejoinRoom1 (oroom : Option Room1) (sid name : String) :
    Option Room1 × JoinAck × List Event :=
  match oroom with
  | none => (none, .failure "Room not found", [])
  | some room =>
    match room.players.find? (fun p => p.name = name) with
    | none => (some room, .failure "Player not in this room", [])
    | some existing =>
      let removed := room.players.eraseP (fun p => p.id = existing.id)
      let players' := jsAssign removed { id := sid, name := name, score := existing.score }
      let room' := { room with players := players', ownerTimeout := false }
      (some room', .success room.owner players',
       [Event.playerList players' room.owner])

/-- The `_ownerTimeout` callback of the grace-window variant
(`src/unnamed/part_001` lines 100-106), firing only while still
scheduled (i.e., not cancelled by a rejoin): if no owner is recorded or
the recorded owner's connection is absent, the room is deleted and
`roomClosed` broadcast; otherwise nothing happens. -/
def ownerTimeoutFire1 (room : Room1) (connected : List String) :
    Option Room1 × List Event :=
  if room.ownerTimeout then
    match room.owner with
    | none => (none, [Event.roomClosed])
    | some o => if o ∈ connected then (some room, []) else (none, [Event.roomClosed])
  else (some room, [])

/-! ### The `src/unnamed/part_002` variant (collision-checked creation) -/

/-- The do-while retry loop of `POST /api/create` in
`src/unnamed/part_002` (lines 26-29): take candidate codes from the
provider in order until one is not yet registered (`none` models the
loop never finding a free code). -/
def pickCode (reg : Registry) : List String → Option String
  | [] => none
  | c :: cs => if (lookupA reg c).isSome then pickCode reg cs else some c

/-- `POST /api/create` of `src/unnamed/part_002` (lines 22-39): retries
the code provider while the generated code collides, then registers a
fresh room under the chosen code. -/
def apiCreate2 (reg : Registry) (name : String) (codes : List String) :
    Registry × Option String :=
  if name = "" then (reg, none)
  else
    match pickCode reg codes with
    | none => (reg, none)
    | some c => (reg ++ [(c, freshRoom)], some c)

/-- Recognizer for `questionEnded` broadcasts, used to count how many
gradings a sequence of triggers produced. -/
def isQuestionEnded : Event → Bool
  | .questionEnded _ _ => true
  | _ => false

/-! ### Concrete fixtures used by witnesses and counterexamples -/

/-- A round whose only answer is Bob's submission `[2,1]` against the
correct set `[1,2]`. -/
def cqC2 : Question :=
  { question := "q", options := ["x", "y", "z"], correctIndexes := [1, 2],
    duration := 5, points := 10, answers := [("b", [2, 1])] }

/-- A started room mid-round containing only Bob. -/
def roomC2 : Room :=
  { owner := some "a", players := [⟨"b", "Bob", 0⟩], started := true,
    currentQuestion := some cqC2, timer := true }

/-- A started room where Alice owns and both Alice and Bob are players. -/
def roomC8 : Room :=
  { owner := some "a", players := [⟨"a", "Alice", 0⟩, ⟨"b", "Bob", 0⟩],
    started := true, currentQuestion := none, timer := false }

/-- A room owned by the connected player Alice. -/
def roomC5 : Room :=
  { owner := some "a", players := [⟨"a", "Alice", 0⟩, ⟨"b", "Bob", 3⟩],
    started := true, currentQuestion := none, timer := false }

/-- A registered room that already holds a player and a score. -/
def occupiedC7 : Room :=
  { owner := some "x", players := [⟨"x", "Xena", 3⟩], started := true,
    currentQuestion := none, timer := false }

/-- A started room whose only player is Alice. -/
def roomC3 : Room :=
  { owner := some "a", players := [⟨"a", "Alice", 5⟩], started := true,
    currentQuestion := none, timer := false }

/-- A grace-window-variant room owned by the player Alice. -/
def room1C5 : Room1 :=
  { owner := some "a", players := [⟨"a", "Alice", 0⟩, ⟨"b", "Bob", 3⟩],
    started := true, ownerTimeout := false }

/-! ### Helper lemmas -/

theorem lookupA_append_ne {α : Type} (m : List (String × α)) (k k' : String)
    (v : α) (h : k ≠ k') : lookupA (m ++ [(k, v)]) k' = lookupA m k' := by
  induction m with
  | nil => simp [lookupA, h]
  | cons kv rest ih =>
    obtain ⟨k0, v0⟩ := kv
    by_cases h0 : k0 = k'
    · simp [lookupA, h0]
    · simp [lookupA, h0, ih]

theorem lookupA_append_self {α : Type} (m : List (String × α)) (k : String)
    (v : α) (h : lookupA m k = none) : lookupA (m ++ [(k, v)]) k = some v := by
  induction m with
  | nil => simp [lookupA]
  | cons kv rest ih =>
    obtain ⟨k0, v0⟩ := kv
    by_cases h0 : k0 = k
    · simp [lookupA, h0] at h
    · simp [lookupA, h0] at h ⊢
      exact ih h

theorem gradeCorrect_iff (sels correct : List Int) :
    gradeCorrect sels correct = true ↔ sels.toFinset = correct.toFinset := by
  unfold gradeCorrect
  rw [Bool.and_eq_true, beq_iff_eq, List.all_eq_true]
  constructor
  · rintro ⟨hcard, hsub⟩
    have hsubset : correct.toFinset ⊆ sels.toFinset := by
      intro i hi
      rw [List.mem_toFinset] at hi
      exact of_decide_eq_true (hsub i hi)
    exact (Finset.eq_of_subset_of_card_le hsubset (le_of_eq hcard)).symm
  · intro h
    refine ⟨by rw [h], fun i hi => decide_eq_true ?_⟩
    rw [h, List.mem_toFinset]
    exact hi

theorem gradePlayer_snd_id (cq : Question) (p : Player) :
    (gradePlayer cq p).2.id = p.id := by
  unfold gradePlayer
  dsimp only []
  split <;> rfl

theorem mem_jsAssign (ps : List Player) (p : Player) : p ∈ jsAssign ps p := by
  unfold jsAssign
  split
  · rename_i h
    rw [List.any_eq_true] at h
    obtain ⟨q, hq, hid⟩ := h
    rw [List.mem_map]
    exact ⟨q, hq, by simp [of_decide_eq_true hid]⟩
  · simp

theorem mem_insertLb (a p : Player) (l : List Player) :
    a ∈ insertLb p l ↔ a = p ∨ a ∈ l := by
  induction l with
  | nil => simp [insertLb]
  | cons q qs ih =>
    unfold insertLb
    split
    · simp
    · simp only [List.mem_cons, ih]
      tauto

theorem pairwise_insertLb (p : Player) (l : List Player)
    (h : l.Pairwise (fun a b => b.score ≤ a.score)) :
    (insertLb p l).Pairwise (fun a b => b.score ≤ a.score) := by
  induction l with
  | nil => simp [insertLb]
  | cons q qs ih =>
    unfold insertLb
    rw [List.pairwise_cons] at h
    obtain ⟨hq, hqs⟩ := h
    split
    · rename_i hle
      rw [List.pairwise_cons]
      refine ⟨?_, List.pairwise_cons.mpr ⟨hq, hqs⟩⟩
      intro b hb
      rcases List.mem_cons.mp hb with rfl | hb
      · exact hle
      · exact le_trans (hq b hb) hle
    · rename_i hgt
      push_neg at hgt
      rw [List.pairwise_cons]
      refine ⟨?_, ih hqs⟩
      intro b hb
      rcases (mem_insertLb b p qs).mp hb with rfl | hb
      · exact le_of_lt hgt
      · exact hq b hb

theorem pairwise_lbSort (ps : List Player) :
    (lbSort ps).Pairwise (fun a b => b.score ≤ a.score) := by
  induction ps with
  | nil => simp [lbSort]
  | cons p ps ih => exact pairwise_insertLb p (lbSort ps) ih

theorem filter_score_insertLb (p : Player) (l : List Player) (s : Nat) :
    (insertLb p l).filter (fun q => q.score = s) =
      (if p.score = s then [p] else []) ++ l.filter (fun q => q.score = s) := by
  induction l with
  | nil => by_cases h : p.score = s <;> simp [insertLb, List.filter, h]
  | cons q qs ih =>
    unfold insertLb
    split
    · rename_i hle
      by_cases hp : p.score = s <;> simp [List.filter_cons, hp]
    · rename_i hgt
      push_neg at hgt
      by_cases hp : p.score = s
      · have hq : ¬ (q.score = s) := by omega
        simp [List.filter_cons, hq, ih, hp]
      · by_cases hq : q.score = s <;> simp [List.filter_cons, hq, ih, hp]

theorem filter_score_lbSort (ps : List Player) (s : Nat) :
    (lbSort ps).filter (fun q => q.score = s) = ps.filter (fun q => q.score = s) := by
  induction ps with
  | nil => rfl
  | cons p ps ih =>
    show (insertLb p (lbSort ps)).filter _ = _
    rw [filter_score_insertLb, ih]
    by_cases hp : p.score = s <;> simp [List.filter_cons, hp]

theorem gradePlayer_eq (cq : Question) (p : Player) :
    gradePlayer cq p =
      if gradeCorrect ((lookupA cq.answers p.id).getD []) cq.correctIndexes then
        ({ p with score := p.score + cq.points },
         { id := p.id, name := p.name, correct := true, awarded := cq.points })
      else (p, { id := p.id, name := p.name, correct := false, awarded := 0 }) := rfl

theorem finishQuestion_some (room : Room) (cq : Question)
    (hq : room.currentQuestion = some cq) :
    finishQuestion (some room) =
      (some { room with players := (gradeResults room cq).1,
                        currentQuestion := none, timer := false },
       [Event.questionEnded (gradeResults room cq).2 (jsSetList cq.correctIndexes),
        Event.leaderboard (lbSort (gradeResults room cq).1),
        Event.playerList (gradeResults room cq).1 room.owner]) := by
  simp only [finishQuestion, hq]

theorem finishQuestion_none (room : Room) (hq : room.currentQuestion = none) :
    finishQuestion (some room) = (some room, []) := by
  simp only [finishQuestion, hq]

theorem pickCode_spec (reg : Registry) (codes : List String) (c : String)
    (h : pickCode reg codes = some c) : lookupA reg c = none := by
  induction codes with
  | nil => simp [pickCode] at h
  | cons c0 cs ih =>
    unfold pickCode at h
    split at h
    · exact ih h
    · rename_i hfree
      cases h
      exact Option.not_isSome_iff_eq_none.mp hfree

/-! ### Claim theorems -/

/-- C2: at grading time, every player currently in the room is marked
correct and awarded the round's points if and only if the player's
submitted index set equals the round's correct index set as sets — order
of submitted indexes is irrelevant, a strict subset is incorrect, an empty
or absent submission against a non-empty correct set is incorrect, and any
extra incorrect index makes the submission incorrect. -/
theorem grading_set_equality (room : Room) (cq : Question)
    (hq : room.currentQuestion = some cq) (p : Player) (hp : p ∈ room.players) :
    ∃ results cI, Event.questionEnded results cI ∈ (finishQuestion (some room)).2 ∧
      (gradePlayer cq p).2 ∈ results ∧
      ((gradePlayer cq p).2.correct = true ↔
        ((lookupA cq.answers p.id).getD []).toFinset = cq.correctIndexes.toFinset) ∧
      ((gradePlayer cq p).2.correct = true →
        (gradePlayer cq p).2.awarded = cq.points ∧
        (gradePlayer cq p).1.score = p.score + cq.points) ∧
      ((gradePlayer cq p).2.correct = false →
        (gradePlayer cq p).2.awarded = 0 ∧ (gradePlayer cq p).1.score = p.score) := by
  refine ⟨(gradeResults room cq).2, jsSetList cq.correctIndexes, ?_, ?_, ?_, ?_, ?_⟩
  · rw [finishQuestion_some room cq hq]
    simp
  · unfold gradeResults
    exact List.mem_map_of_mem _ hp
  · rw [gradePlayer_eq]
    by_cases hg : gradeCorrect ((lookupA cq.answers p.id).getD []) cq.correctIndexes = true
    · simpa [hg] using (gradeCorrect_iff _ _).mp hg
    · rw [if_neg hg]
      simp only [Bool.false_eq_true, false_iff]
      exact fun h => hg ((gradeCorrect_iff _ _).mpr h)
  · rw [gradePlayer_eq]
    split
    · intro _
      exact ⟨rfl, rfl⟩
    · intro h
      simp at h
  · rw [gradePlayer_eq]
    split
    · intro h
      simp at h
    · intro _
      exact ⟨rfl, rfl⟩

/-- C2 witness: in `roomC2`, Bob's submission `[2,1]` set-equals the
correct set `[1,2]` and is graded correct with the points awarded. -/
theorem grading_set_equality_witness :
    ∃ results cI,
      Event.questionEnded results cI ∈ (finishQuestion (some roomC2)).2 ∧
      (gradePlayer cqC2 ⟨"b", "Bob", 0⟩).2 ∈ results ∧
      ((gradePlayer cqC2 ⟨"b", "Bob", 0⟩).2.correct = true ↔
        ((lookupA cqC2.answers "b").getD []).toFinset = cqC2.correctIndexes.toFinset) ∧
      ((gradePlayer cqC2 ⟨"b", "Bob", 0⟩).2.correct = true →
        (gradePlayer cqC2 ⟨"b", "Bob", 0⟩).2.awarded = cqC2.points ∧
        (gradePlayer cqC2 ⟨"b", "Bob", 0⟩).1.score = 0 + cqC2.points) ∧
      ((gradePlayer cqC2 ⟨"b", "Bob", 0⟩).2.correct = false →
        (gradePlayer cqC2 ⟨"b", "Bob", 0⟩).2.awarded = 0 ∧
        (gradePlayer cqC2 ⟨"b", "Bob", 0⟩).1.score = 0) :=
  grading_set_equality roomC2 cqC2 rfl ⟨"b", "Bob", 0⟩ (by decide)

/-- C8 (code evaluated at the failing input): a kick request naming the
owner's own identifier is not rejected — `kickPlayer` deletes the owner
from the player map and emits `kicked` plus the player list with no error
event, leaving `room.owner` pointing at an identifier that no longer keys
a player while the room stays started. -/
theorem kick_owner_not_rejected :
    kickPlayer (some roomC8) "a" "a" =
      (some { owner := some "a", players := [⟨"b", "Bob", 0⟩],
              started := true, currentQuestion := none, timer := false },
       [Event.kicked "a", Event.playerList [⟨"b", "Bob", 0⟩] (some "a")]) ∧
    ∀ p ∈ ({ owner := some "a", players := [⟨"b", "Bob", 0⟩], started := true,
             currentQuestion := none, timer := false } : Room).players,
      p.id ≠ "a" := by
  decide

/-- C5 counterexample: in the primary variant (`src/server.js`) the
disconnect of the owner deletes the room in the very same step — the
registry is empty and `roomClosed` is broadcast immediately, with no
grace window in which a reconnection could be accepted. -/
theorem owner_disconnect_closes_immediately :
    disconnect [("R", roomC5)] "a" = ([], [Event.roomClosed]) ∧
    lookupA (disconnect [("R", roomC5)] "a").1 "R" = none := by
  decide

/-- C7 counterexample: `POST /api/create` of the primary variant
(`src/server.js`) performs no collision check — creating with a code that
already keys a live, occupied room succeeds and replaces that room with a
fresh empty one. -/
theorem create_overwrites_live_room :
    (apiCreate [("AB", occupiedC7)] "Alice" "AB").2 = some "AB" ∧
    lookupA (apiCreate [("AB", occupiedC7)] "Alice" "AB").1 "AB" = some freshRoom ∧
    freshRoom ≠ occupiedC7 := by
  decide

/-- C9: the REST pre-join validation endpoint never answers `ok` for a
started room — a name not currently present gets the game-already-started
error, and a name that is present (exactly the case the realtime join
path accepts as a reconnection) gets `409 Name already taken`, so a
disconnected player of a started game can never pass pre-join
validation. -/
theorem apiJoin_started_never_ok (reg : Registry) (code name : String)
    (room : Room) (hc : code ≠ "") (hn : name ≠ "")
    (hr : lookupA reg (normCode code) = some room)
    (hs : room.started = true) :
    apiJoin reg code name ≠ RestResp.ok ∧
    (room.players.any (fun p => p.name = name) = true →
      apiJoin reg code name = .err 409 "Name already taken") ∧
    (room.players.any (fun p => p.name = name) = false →
      apiJoin reg code name = .err 400 "Game already started") := by
  have hcond : ¬ (code = "" ∨ name = "") := by
    rintro (h | h)
    · exact hc h
    · exact hn h
  by_cases hname : room.players.any (fun p => p.name = name) = true
  · have : apiJoin reg code name = .err 409 "Name already taken" := by
      simp only [apiJoin, if_neg hcond, hr]
      rw [if_neg, if_pos hname]
      simp [hname]
    refine ⟨by simp [this], fun _ => this, fun h => by simp [h] at hname⟩
  · have hfalse : room.players.any (fun p => p.name = name) = false :=
      Bool.not_eq_true _ ▸ Bool.of_not_eq_true hname
    have : apiJoin reg code name = .err 400 "Game already started" := by
      simp only [apiJoin, if_neg hcond, hr]
      rw [if_pos]
      exact ⟨hs, hname⟩
    refine ⟨by simp [this], fun h => by rw [h] at hfalse; simp at hfalse, fun _ => this⟩

/-- C9 witness: a started room with player Bob; both the unknown-name and
the present-name requests are refused. -/
theorem apiJoin_started_never_ok_witness :
    (apiJoin [(normCode "R", roomC2)] "R" "Zed" ≠ RestResp.ok ∧
      (roomC2.players.any (fun p => p.name = "Zed") = true →
        apiJoin [(normCode "R", roomC2)] "R" "Zed" = .err 409 "Name already taken") ∧
      (roomC2.players.any (fun p => p.name = "Zed") = false →
        apiJoin [(normCode "R", roomC2)] "R" "Zed" = .err 400 "Game already started")) :=
  apiJoin_started_never_ok [(normCode "R", roomC2)] "R" "Zed" roomC2
    (by decide) (by decide) (by simp [lookupA]) rfl

/-- C4: the first `submitAnswer` of a round records the caller's
submission; any second `submitAnswer` by the same connection during the
same round is rejected with the already-answered error and leaves the
room — the stored submission included — unchanged. -/
theorem submit_answer_once (room : Room) (cq : Question) (sid : String)
    (sel : Selections) (connected : List String)
    (hq : room.currentQuestion = some cq)
    (hnew : lookupA cq.answers sid = none) :
    ∃ room1,
      (submitAnswer (some room) sid sel connected).1 = some room1 ∧
      room1.currentQuestion =
        some { cq with answers := cq.answers ++ [(sid, normSel sel)] } ∧
      (∀ sel' connected',
        submitAnswer (some room1) sid sel' connected' =
          (some room1, [Event.errorMsg "Already answered"])) ∧
      (∀ room2 cq2 sel' connected', room2.currentQuestion = some cq2 →
        (lookupA cq2.answers sid).isSome = true →
        submitAnswer (some room2) sid sel' connected' =
          (some room2, [Event.errorMsg "Already answered"])) := by
  have hstored :
      lookupA (cq.answers ++ [(sid, normSel sel)]) sid = some (normSel sel) :=
    lookupA_append_self cq.answers sid (normSel sel) hnew
  refine ⟨({ room with currentQuestion := some ({ cq with answers := cq.answers ++ [(sid, normSel sel)] }) }), ?_, rfl, ?_, ?_⟩
  · simp only [submitAnswer, hq, hnew, Option.isSome_none, Bool.false_eq_true,
      if_neg, reduceIte]
  · intro sel' connected'
    simp only [submitAnswer, hstored, Option.isSome_some, if_pos]
  · intro room2 cq2 sel' connected' hq2 hsome
    simp only [submitAnswer, hq2, hsome, if_pos]

/-- C4 witness: a fresh connection `z` answers in `roomC2`; the
submission is stored and a repeat submission is rejected without altering
it. -/
theorem submit_answer_once_witness :
    ∃ room1,
      (submitAnswer (some roomC2) "z" (Selections.arr [1]) ["a"]).1 = some room1 ∧
      room1.currentQuestion =
        some { cqC2 with
          answers := cqC2.answers ++ [("z", normSel (Selections.arr [1]))] } ∧
      (∀ sel' connected',
        submitAnswer (some room1) "z" sel' connected' =
          (some room1, [Event.errorMsg "Already answered"])) ∧
      (∀ room2 cq2 sel' connected', room2.currentQuestion = some cq2 →
        (lookupA cq2.answers "z").isSome = true →
        submitAnswer (some room2) "z" sel' connected' =
          (some room2, [Event.errorMsg "Already answered"])) :=
  submit_answer_once roomC2 cqC2 "z" (Selections.arr [1]) ["a"] rfl (by decide)

/-- C1: grading runs at most once per round.  Whether the automatic timer
trigger (`finishQuestion`) and the owner's manual end
(`endQuestionNow`) fire in either order, exactly one `questionEnded`
broadcast is produced, both orders end in the same state, the later
trigger — observing no active round — is a no-op that changes no state
and emits nothing, and every player's score grows by at most the round's
points. -/
theorem grading_once_per_round (room : Room) (cq : Question) (c : String)
    (hq : room.currentQuestion = some cq) (ho : room.owner = some c) :
    ((finishQuestion (some room)).2 ++
      (endQuestionNow c (finishQuestion (some room)).1).2).countP isQuestionEnded = 1 ∧
    endQuestionNow c (finishQuestion (some room)).1 = ((finishQuestion (some room)).1, []) ∧
    ((endQuestionNow c (some room)).2 ++
      (finishQuestion (endQuestionNow c (some room)).1).2).countP isQuestionEnded = 1 ∧
    finishQuestion (endQuestionNow c (some room)).1 = ((endQuestionNow c (some room)).1, []) ∧
    endQuestionNow c (some room) = finishQuestion (some room) ∧
    ∀ p ∈ room.players, (gradePlayer cq p).1 ∈ (gradeResults room cq).1 ∧
      p.score ≤ (gradePlayer cq p).1.score ∧
      (gradePlayer cq p).1.score ≤ p.score + cq.points := by
  have hfin := finishQuestion_some room cq hq
  have h1 : (finishQuestion (some room)).1 =
      some { room with players := (gradeResults room cq).1,
                       currentQuestion := none, timer := false } := by
    rw [hfin]
  have hend : endQuestionNow c (finishQuestion (some room)).1 =
      ((finishQuestion (some room)).1, []) := by
    rw [h1]
    show endQuestionNow c (some _) = _
    rw [endQuestionNow, if_pos (show Room.owner _ = some c from ho)]
    exact finishQuestion_none _ rfl
  have hmanual : endQuestionNow c (some room) = finishQuestion (some room) := by
    rw [endQuestionNow, if_pos (show room.owner = some c from ho)]
  have htimer2 : finishQuestion (endQuestionNow c (some room)).1 =
      ((endQuestionNow c (some room)).1, []) := by
    rw [hmanual, h1]
    exact finishQuestion_none _ rfl
  refine ⟨?_, hend, ?_, htimer2, hmanual, ?_⟩
  · rw [hend, hfin]
    simp [List.countP_cons, isQuestionEnded]
  · rw [htimer2, hmanual, hfin]
    simp [List.countP_cons, isQuestionEnded]
  · intro p hp
    refine ⟨List.mem_map_of_mem _ hp, ?_, ?_⟩ <;> rw [gradePlayer_eq] <;> split
    · exact Nat.le_add_right _ _
    · exact le_refl _
    · exact le_refl _
    · exact Nat.le_add_right _ _

/-- C1 witness: in `roomC2` (owner `"a"`, active round `cqC2`), both
trigger orders produce exactly one `questionEnded` and the later trigger
is a stateless, eventless no-op. -/
theorem grading_once_per_round_witness :
    ((finishQuestion (some roomC2)).2 ++
      (endQuestionNow "a" (finishQuestion (some roomC2)).1).2).countP isQuestionEnded = 1 ∧
    endQuestionNow "a" (finishQuestion (some roomC2)).1 = ((finishQuestion (some roomC2)).1, []) ∧
    ((endQuestionNow "a" (some roomC2)).2 ++
      (finishQuestion (endQuestionNow "a" (some roomC2)).1).2).countP isQuestionEnded = 1 ∧
    finishQuestion (endQuestionNow "a" (some roomC2)).1 = ((endQuestionNow "a" (some roomC2)).1, []) ∧
    endQuestionNow "a" (some roomC2) = finishQuestion (some roomC2) ∧
    ∀ p ∈ roomC2.players, (gradePlayer cqC2 p).1 ∈ (gradeResults roomC2 cqC2).1 ∧
      p.score ≤ (gradePlayer cqC2 p).1.score ∧
      (gradePlayer cqC2 p).1.score ≤ p.score + cqC2.points :=
  grading_once_per_round roomC2 cqC2 "a" rfl rfl

/-- C6: the leaderboard broadcast after grading lists the post-grading
players sorted by descending score, and players with equal scores keep
their relative (join/insertion) order from the room's player collection:
every equal-score fiber of the leaderboard equals the corresponding fiber
of the room's player list. -/
theorem leaderboard_sorted_stable (room : Room) (cq : Question)
    (hq : room.currentQuestion = some cq) :
    ∃ L, Event.leaderboard L ∈ (finishQuestion (some room)).2 ∧
      (finishQuestion (some room)).1 =
        some ({ room with players := (gradeResults room cq).1,
                          currentQuestion := none, timer := false }) ∧
      L.Pairwise (fun a b => b.score ≤ a.score) ∧
      ∀ s : Nat, L.filter (fun p => p.score = s) =
        (gradeResults room cq).1.filter (fun p => p.score = s) := by
  refine ⟨lbSort (gradeResults room cq).1, ?_, ?_, pairwise_lbSort _,
    fun s => filter_score_lbSort _ s⟩
  · rw [finishQuestion_some room cq hq]
    simp
  · rw [finishQuestion_some room cq hq]

/-- C6 witness: the leaderboard emitted for `roomC2` after grading
`cqC2`. -/
theorem leaderboard_sorted_stable_witness :
    ∃ L, Event.leaderboard L ∈ (finishQuestion (some roomC2)).2 ∧
      (finishQuestion (some roomC2)).1 =
        some ({ roomC2 with players := (gradeResults roomC2 cqC2).1,
                            currentQuestion := none, timer := false }) ∧
      L.Pairwise (fun a b => b.score ≤ a.score) ∧
      ∀ s : Nat, L.filter (fun p => p.score = s) =
        (gradeResults roomC2 cqC2).1.filter (fun p => p.score = s) :=
  leaderboard_sorted_stable roomC2 cqC2 rfl

/-- C10: `submitAnswer` does not check room membership — a connection
that is not in the player list of a room with an active round, and has
not answered yet, gets its submission stored under its identifier and the
connected owner is notified with `playerAnswered` (with no player name,
the submitter being unknown); yet grading iterates only over the room's
players, so the outcome of `finishQuestion` — states, scores, results and
broadcasts — is identical to grading without that submission, and no
result record carries the non-member's identifier. -/
theorem submit_nonmember_ignored (room : Room) (cq : Question)
    (sid : String) (sel : Selections) (connected : List String) (o : String)
    (hq : room.currentQuestion = some cq)
    (hmem : room.players.any (fun p => p.id = sid) = false)
    (hnew : lookupA cq.answers sid = none)
    (ho : room.owner = some o) (hoc : o ∈ connected) :
    submitAnswer (some room) sid sel connected =
      (some ({ room with currentQuestion := some ({ cq with answers := cq.answers ++ [(sid, normSel sel)] }) }),
       [Event.playerAnswered sid none]) ∧
    finishQuestion (some ({ room with currentQuestion := some ({ cq with answers := cq.answers ++ [(sid, normSel sel)] }) })) =
      finishQuestion (some room) ∧
    ∀ r ∈ (gradeResults room cq).2, r.id ≠ sid := by
  have hid : ∀ p ∈ room.players, p.id ≠ sid := by
    intro p hp heq
    rw [List.any_eq_false] at hmem
    exact absurd (decide_eq_true heq) (hmem p hp)
  have hfind : room.players.find? (fun p => p.id = sid) = none := by
    rw [List.find?_eq_none]
    intro p hp
    simpa using hid p hp
  have hgp : ∀ p ∈ room.players,
      gradePlayer ({ cq with answers := cq.answers ++ [(sid, normSel sel)] }) p =
        gradePlayer cq p := by
    intro p hp
    rw [gradePlayer_eq, gradePlayer_eq]
    have : lookupA (cq.answers ++ [(sid, normSel sel)]) p.id = lookupA cq.answers p.id :=
      lookupA_append_ne cq.answers sid p.id (normSel sel) (fun h => hid p hp h.symm)
    simp only [this]
  have hgr1 : (gradeResults ({ room with currentQuestion := some ({ cq with answers := cq.answers ++ [(sid, normSel sel)] }) }) ({ cq with answers := cq.answers ++ [(sid, normSel sel)] })).1 =
      (gradeResults room cq).1 := by
    unfold gradeResults
    exact List.map_congr_left (fun p hp => by rw [hgp p hp])
  have hgr2 : (gradeResults ({ room with currentQuestion := some ({ cq with answers := cq.answers ++ [(sid, normSel sel)] }) }) ({ cq with answers := cq.answers ++ [(sid, normSel sel)] })).2 =
      (gradeResults room cq).2 := by
    unfold gradeResults
    exact List.map_congr_left (fun p hp => by rw [hgp p hp])
  refine ⟨?_, ?_, ?_⟩
  · simp only [submitAnswer, hq, hnew, Option.isSome_none, Bool.false_eq_true,
      reduceIte, ho, if_pos hoc, hfind, Option.map_none']
  · rw [finishQuestion_some _ ({ cq with answers := cq.answers ++ [(sid, normSel sel)] }) rfl,
      finishQuestion_some room cq hq, hgr1, hgr2]
  · intro r hr
    unfold gradeResults at hr
    rw [List.mem_map] at hr
    obtain ⟨p, hp, rfl⟩ := hr
    rw [gradePlayer_snd_id]
    exact hid p hp

/-- C10 witness: connection `z` is not a player of `roomC2`; its
submission is stored and the owner notified, but grading is unchanged. -/
theorem submit_nonmember_ignored_witness :
    submitAnswer (some roomC2) "z" (Selections.scalar 1) ["a"] =
      (some ({ roomC2 with currentQuestion := some ({ cqC2 with answers := cqC2.answers ++ [("z", normSel (Selections.scalar 1))] }) }),
       [Event.playerAnswered "z" none]) ∧
    finishQuestion (some ({ roomC2 with currentQuestion := some ({ cqC2 with answers := cqC2.answers ++ [("z", normSel (Selections.scalar 1))] }) })) =
      finishQuestion (some roomC2) ∧
    ∀ r ∈ (gradeResults roomC2 cqC2).2, r.id ≠ "z" :=
  submit_nonmember_ignored roomC2 cqC2 "z" (Selections.scalar 1) ["a"] "a"
    rfl (by decide) (by decide) rfl (by decide)

/-- C3 counterexample: in a started room, a join request whose name
matches no existing player but which claims ownership does NOT receive
the GameAlreadyStarted error acknowledgement the claim promises for every
no-matching-name request — the handler falls off its end, sending no
acknowledgement at all (and changing no state). -/
theorem join_started_unknown_owner_silent :
    joinRoom (some roomC3) "z" "Zed" true = (some roomC3, JoinAck.noAck, []) ∧
    JoinAck.noAck ≠ JoinAck.failure "Game already started" := by
  decide

/-- C3 (amended): for a join against a started room — if an existing
player has the requested name, the join succeeds as a reconnection that
remaps that player's record to the caller's connection identifier
preserving the score (reassigning ownership exactly when the caller
claims it); if no player has the name and the caller does not claim
ownership, the join fails with the GameAlreadyStarted error; if no player
has the name but the caller claims ownership, the handler returns without
any acknowledgement and without changing the room. -/
theorem join_started_behavior (room : Room) (sid name : String)
    (isOwner : Bool) (hs : room.started = true) :
    (∀ old, room.players.find? (fun p => p.name = name) = some old →
      ∃ players',
        joinRoom (some room) sid name isOwner =
          (some ({ room with players := players', owner := if isOwner then some sid else room.owner }),
           JoinAck.success (if isOwner then some sid else room.owner) players',
           [Event.playerList players' (if isOwner then some sid else room.owner)]) ∧
        (⟨sid, old.name, old.score⟩ : Player) ∈ players') ∧
    (room.players.find? (fun p => p.name = name) = none → isOwner = false →
      joinRoom (some room) sid name isOwner =
        (some room, JoinAck.failure "Game already started", [])) ∧
    (room.players.find? (fun p => p.name = name) = none → isOwner = true →
      joinRoom (some room) sid name isOwner = (some room, JoinAck.noAck, [])) := by
  refine ⟨?_, ?_, ?_⟩
  · intro old hfind
    refine ⟨jsAssign (room.players.eraseP (fun p => p.name = name))
      { id := sid, name := old.name, score := old.score }, ?_, ?_⟩
    · simp only [joinRoom, hs, if_true, hfind]
    · exact mem_jsAssign _ _
  · intro hfind hio
    simp only [joinRoom, hs, if_true, hfind, hio, Bool.false_eq_true, reduceIte]
  · intro hfind hio
    simp only [joinRoom, hs, if_true, hfind, hio, reduceIte]

/-- C3 witness: reconnecting to `roomC3` as the existing name `Alice`
succeeds with the score preserved; unknown names fail or fall silent as
amended. -/
theorem join_started_behavior_witness :
    (∀ old, roomC3.players.find? (fun p => p.name = "Alice") = some old →
      ∃ players',
        joinRoom (some roomC3) "n2" "Alice" true =
          (some ({ roomC3 with players := players', owner := if true then some "n2" else roomC3.owner }),
           JoinAck.success (if true then some "n2" else roomC3.owner) players',
           [Event.playerList players' (if true then some "n2" else roomC3.owner)]) ∧
        (⟨"n2", old.name, old.score⟩ : Player) ∈ players') ∧
    (roomC3.players.find? (fun p => p.name = "Alice") = none → true = false →
      joinRoom (some roomC3) "n2" "Alice" true =
        (some roomC3, JoinAck.failure "Game already started", [])) ∧
    (roomC3.players.find? (fun p => p.name = "Alice") = none → true = true →
      joinRoom (some roomC3) "n2" "Alice" true = (some roomC3, JoinAck.noAck, [])) :=
  join_started_behavior roomC3 "n2" "Alice" true rfl

/-- C5 (amended, grace-window variant `src/unnamed/part_001`): when the
disconnected player is the owner, the room is not deleted — it stays
registered with a 30-second owner timeout pending and the player list is
rebroadcast.  However the disconnect also removed the owner's player
record, so a reconnection under the owner's own display name is rejected
("Player not in this room") rather than accepted; a rejoin under a
remaining player's name is accepted and cancels the timeout, after which
the timeout is a no-op; if instead the timeout fires while the recorded
owner connection is absent, the room is deleted and `roomClosed` is
broadcast.  (The primary variant `src/server.js` instead deletes the room
immediately; see the counterexample.) -/
theorem owner_disconnect_grace_window (code : String) (room : Room1)
    (sid : String) (op : Player) (hop : op ∈ room.players) (hid : op.id = sid)
    (ho : room.owner = some sid)
    (huniq : ∀ p ∈ room.players, p.name = op.name → p.id = sid) :
    ∃ room',
      disconnect1 [(code, room)] sid =
        ([(code, room')], [Event.playerList room'.players room.owner]) ∧
      room'.ownerTimeout = true ∧
      room'.owner = some sid ∧
      room'.players = room.players.filter (fun p => ¬ (p.id = sid)) ∧
      (∀ sid2, rejoinRoom1 (some room') sid2 op.name =
        (some room', JoinAck.failure "Player not in this room", [])) ∧
      (∀ connected, sid ∉ connected →
        ownerTimeoutFire1 room' connected = (none, [Event.roomClosed])) ∧
      (∀ q ∈ room'.players, ∀ sid2, ∃ room'' players'',
        rejoinRoom1 (some room') sid2 q.name =
          (some room'', JoinAck.success room'.owner players'',
           [Event.playerList players'' room'.owner]) ∧
        room''.ownerTimeout = false ∧
        ∀ connected, ownerTimeoutFire1 room'' connected = (some room'', [])) := by
  have hany : room.players.any (fun p => p.id = sid) = true := by
    rw [List.any_eq_true]
    exact ⟨op, hop, decide_eq_true hid⟩
  refine ⟨({ room with players := room.players.filter (fun p => ¬ (p.id = sid)), ownerTimeout := true }), ?_, rfl, ho, rfl, ?_, ?_, ?_⟩
  · simp only [disconnect1, hany, if_true, if_pos ho]
  · intro sid2
    have hnone : (room.players.filter (fun p => ¬ (p.id = sid))).find?
        (fun p => p.name = op.name) = none := by
      rw [List.find?_eq_none]
      intro p hp
      rw [List.mem_filter] at hp
      obtain ⟨hpmem, hpid⟩ := hp
      intro hname
      have : p.id = sid := huniq p hpmem (of_decide_eq_true hname)
      simp [this] at hpid
    simp only [rejoinRoom1, hnone]
  · intro connected hnc
    simp only [ownerTimeoutFire1, if_true, ho]
    rw [if_neg hnc]
  · intro q hq sid2
    have hfind : ((room.players.filter (fun p => ¬ (p.id = sid))).find?
        (fun p => p.name = q.name)).isSome = true := by
      rw [List.find?_isSome]
      exact ⟨q, hq, by simp⟩
    obtain ⟨existing, hex⟩ := Option.isSome_iff_exists.mp hfind
    simp only [rejoinRoom1, hex]
    refine ⟨_, _, rfl, rfl, ?_⟩
    intro connected
    simp [ownerTimeoutFire1]

/-- C5 amended witness: Alice (owner of `room1C5`) disconnects; the room
survives with a pending timeout, her own rejoin is rejected, Bob's rejoin
cancels the window, and the expired window closes the room. -/
theorem owner_disconnect_grace_window_witness :
    ∃ room',
      disconnect1 [("R", room1C5)] "a" =
        ([("R", room')], [Event.playerList room'.players room1C5.owner]) ∧
      room'.ownerTimeout = true ∧
      room'.owner = some "a" ∧
      room'.players = room1C5.players.filter (fun p => ¬ (p.id = "a")) ∧
      (∀ sid2, rejoinRoom1 (some room') sid2 "Alice" =
        (some room', JoinAck.failure "Player not in this room", [])) ∧
      (∀ connected, "a" ∉ connected →
        ownerTimeoutFire1 room' connected = (none, [Event.roomClosed])) ∧
      (∀ q ∈ room'.players, ∀ sid2, ∃ room'' players'',
        rejoinRoom1 (some room') sid2 q.name =
          (some room'', JoinAck.success room'.owner players'',
           [Event.playerList players'' room'.owner]) ∧
        room''.ownerTimeout = false ∧
        ∀ connected, ownerTimeoutFire1 room'' connected = (some room'', [])) :=
  owner_disconnect_grace_window "R" room1C5 "a" ⟨"a", "Alice", 0⟩
    (by decide) rfl rfl (by decide)

/-- C7 (amended, collision-checked variant `src/unnamed/part_002`): a
successful create returns the first provider code not already registered,
appends a fresh room under it, and leaves every other registered room
untouched — so the returned code is unique among live rooms and no
existing room is overwritten.  (The primary variant `src/server.js` skips
the collision check; see the counterexample.) -/
theorem create2_unique_code (reg : Registry) (name : String)
    (codes : List String) (reg' : Registry) (c : String)
    (h : apiCreate2 reg name codes = (reg', some c)) :
    lookupA reg c = none ∧
    reg' = reg ++ [(c, freshRoom)] ∧
    lookupA reg' c = some freshRoom ∧
    ∀ c', c' ≠ c → lookupA reg' c' = lookupA reg c' := by
  unfold apiCreate2 at h
  split at h
  · simp at h
  · rename_i hname
    rcases hpick : pickCode reg codes with _ | c0
    · rw [hpick] at h
      simp at h
    · rw [hpick] at h
      rw [Prod.ext_iff] at h
      obtain ⟨hreg, hc⟩ := h
      rw [Option.some_inj] at hc
      subst hc
      subst hreg
      have hfree := pickCode_spec reg codes c0 hpick
      refine ⟨hfree, rfl, lookupA_append_self reg c0 freshRoom hfree, ?_⟩
      intro c' hne
      exact lookupA_append_ne reg c0 c' freshRoom (fun hcc => hne hcc.symm)

/-- C7 amended witness: with `"AB"` taken, the retrying create skips it
and registers under `"CD"` without touching the existing room. -/
theorem create2_unique_code_witness :
    lookupA [("AB", occupiedC7)] "CD" = none ∧
    ([("AB", occupiedC7), ("CD", freshRoom)] : Registry) =
      [("AB", occupiedC7)] ++ [("CD", freshRoom)] ∧
    lookupA ([("AB", occupiedC7), ("CD", freshRoom)] : Registry) "CD" = some freshRoom ∧
    ∀ c', c' ≠ "CD" →
      lookupA ([("AB", occupiedC7), ("CD", freshRoom)] : Registry) c' =
        lookupA [("AB", occupiedC7)] c' :=
  create2_unique_code [("AB", occupiedC7)] "Alice" ["AB", "CD"]
    [("AB", occupiedC7), ("CD", freshRoom)] "CD" (by decide)

end Blueprints
